import Mathlib

/-!
Shallow embedding of the GitHub API client (`Github_API_usage.py`): the
rate-limit handler `_handle_rate_limit`, the paged operations
`search_repositories` and `list_commits`, and the single fetch `get_content`.
The HTTP transport is modelled as a finite list of mocked responses consumed
one per request; when a loop would issue a request beyond the supplied
sequence, the model stops and returns the aggregation so far, with the
request count equal to the number of responses consumed.  Blocking waits are
recorded as the list of durations passed to the sleeper, and the fixed
inter-page delay of the search strategy is recorded as a sleep count.
-/

namespace GithubApi

/-- Opaque item records (repository entries, commit records, content
records); the client never inspects them, so a numeric tag suffices. -/
abbrev Item := Nat

/-- A mocked HTTP response: the status code, the two optional rate-limit
headers `X-RateLimit-Remaining` and `X-RateLimit-Reset`, and the decoded
JSON body. `totalCount` models `data.get("total_count", 0)`, `items` models
`data.get("items", [])` for the search endpoint and the whole decoded body
for the commits endpoint, and `record` models the single decoded record of
the contents endpoint. -/
structure Response where
  status : Nat
  rlRemaining : Option Int
  rlReset : Option Int
  totalCount : Nat
  items : List Item
  record : Item
  deriving Repr, DecidableEq

/-- The one Python exception the embedded operations can raise: the
`ZeroDivisionError` from `math.ceil(min(total_count, max_repos) / per_page)`
when `per_page == 0`. -/
inductive PyError where
  | zeroDivisionError
  deriving Repr, DecidableEq

/-- Embedding of `GitHubAPI._handle_rate_limit`.  The first component is the
returned response object; the second is `some d` exactly when the handler
calls `time.sleep(d)`, with `d = (reset - now) + 1` computed from the headers
(`reset` defaulting to the current time when the reset header is absent). -/
def handle_rate_limit (response : Response) (now : Int) : Response × Option Int :=
  if response.status = 403 ∧ response.rlRemaining.isSome then
    let remaining : Int := response.rlRemaining.getD 0
    let reset : Int := response.rlReset.getD now
    let waitTime : Int := reset - now
    if remaining = 0 then (response, some (waitTime + 1)) else (response, none)
  else (response, none)

/-- Outcome of a paged operation: the aggregated items, the number of HTTP
requests issued, the rate-limit sleep durations performed, the number of
inter-page `time.sleep(delay)` calls, and the unconsumed suffix of the
mocked transport sequence. -/
structure PagedOutcome where
  items : List Item
  requests : Nat
  waits : List Int
  pageSleeps : Nat
  leftover : List Response
  deriving Repr, DecidableEq

/-- The `for page in range(2, total_pages + 1)` loop of
`search_repositories`, driven by the number `k` of remaining planned pages
and the remaining mocked responses `rs`.  Mirrors the source: stop when the
accumulated results already reach `maxRepos`; on a non-200 response, consult
the rate limiter and `continue` (which advances the page counter) when the
status is 403, otherwise break; on a 200 response extend the results and
sleep the inter-page delay. -/
def search_go (now : Int) (maxRepos : Nat) :
    Nat → List Response → List Item → Nat → List Int → Nat → PagedOutcome
  | 0, rs, acc, reqs, ws, ds => ⟨acc, reqs, ws, ds, rs⟩
  | k + 1, rs, acc, reqs, ws, ds =>
    if maxRepos ≤ acc.length then ⟨acc, reqs, ws, ds, rs⟩
    else
      match rs with
      | [] => ⟨acc, reqs, ws, ds, []⟩
      | r :: rs2 =>
        if r.status = 200 then
          search_go now maxRepos k rs2 (acc ++ r.items) (reqs + 1) ws (ds + 1)
        else if r.status = 403 then
          search_go now maxRepos k rs2 acc (reqs + 1)
            (ws ++ ((handle_rate_limit r now).2).toList) ds
        else ⟨acc, reqs + 1, ws, ds, rs2⟩

/-- Embedding of `GitHubAPI.search_repositories`.  `first` is the mocked
response to the initial request and `rest` the responses served to the loop.
When the first response is not 200 the source returns `[]` (after a one-shot
rate-limit wait when the status is 403); otherwise it computes
`total_pages = math.ceil(min(total_count, max_repos) / per_page)` — a
`ZeroDivisionError` when `per_page = 0` — runs the page loop over pages
`2 .. total_pages`, and returns `all_results[:max_repos]`. -/
def search_repositories (now : Int) (perPage maxRepos : Nat)
    (first : Response) (rest : List Response) : Except PyError PagedOutcome :=
  if first.status ≠ 200 then
    if first.status = 403 then
      Except.ok ⟨[], 1, ((handle_rate_limit first now).2).toList, 0, rest⟩
    else
      Except.ok ⟨[], 1, [], 0, rest⟩
  else if perPage = 0 then
    Except.error PyError.zeroDivisionError
  else
    let totalPages : Nat := (min first.totalCount maxRepos + perPage - 1) / perPage
    let go := search_go now maxRepos (totalPages - 1) rest first.items 1 [] 0
    Except.ok ⟨go.items.take maxRepos, go.requests, go.waits, go.pageSleeps, go.leftover⟩

/-- The `while True` loop of `list_commits`: each iteration issues one
request, passes the response through the rate limiter, and on a 200 response
extends the results, stopping when the page is shorter than `perPage`; any
other status stops the loop. -/
def list_commits_go (now : Int) (perPage : Nat) :
    List Response → List Item → Nat → List Int → PagedOutcome
  | [], acc, reqs, ws => ⟨acc, reqs, ws, 0, []⟩
  | r :: rs, acc, reqs, ws =>
    let r2 := (handle_rate_limit r now).1
    let ws2 := ws ++ ((handle_rate_limit r now).2).toList
    if r2.status = 200 then
      if r2.items.length < perPage then ⟨acc ++ r2.items, reqs + 1, ws2, 0, rs⟩
      else list_commits_go now perPage rs (acc ++ r2.items) (reqs + 1) ws2
    else ⟨acc, reqs + 1, ws2, 0, rs⟩

/-- Embedding of `GitHubAPI.list_commits`, driven by the mocked transport
sequence `responses`. -/
def list_commits (now : Int) (perPage : Nat) (responses : List Response) : PagedOutcome :=
  list_commits_go now perPage responses [] 0 []

/-- Outcome of `get_content`: the optional decoded record, the number of
requests issued, and the rate-limit sleep durations performed. -/
structure ContentOutcome where
  result : Option Item
  requests : Nat
  waits : List Int
  deriving Repr, DecidableEq

/-- Embedding of `GitHubAPI.get_content`: one request, one pass through the
rate limiter, then the decoded record on 200 and `None` otherwise. -/
def get_content (now : Int) (r : Response) : ContentOutcome :=
  let r2 := (handle_rate_limit r now).1
  let ws := ((handle_rate_limit r now).2).toList
  if r2.status = 200 then ⟨some r2.record, 1, ws⟩ else ⟨none, 1, ws⟩

/-- Concatenation, in order, of the item lists of the status-200 responses
of a fetched sequence: the reference order for aggregated results. -/
def pagesJoin (rs : List Response) : List Item :=
  ((rs.filter (fun r => r.status = 200)).map (fun r => r.items)).flatten

/-- The rate-limit handler always returns the response object it was
given. -/
theorem hrl_fst (r : Response) (now : Int) : (handle_rate_limit r now).1 = r := by
  unfold handle_rate_limit
  split
  · dsimp only
    split <;> rfl
  · rfl

/-- Characterisation of the sleep performed by the rate-limit handler. -/
theorem hrl_snd_char (r : Response) (now : Int) :
    (handle_rate_limit r now).2 =
      if r.status = 403 ∧ r.rlRemaining = some 0 then some (r.rlReset.getD now - now + 1)
      else none := by
  unfold handle_rate_limit
  cases hR : r.rlRemaining with
  | none => simp [hR]
  | some n =>
    by_cases hs : r.status = 403
    · by_cases hn : n = 0 <;> simp [hR, hs, hn]
    · simp [hR, hs]

/-- A response whose status is not 403 passes through the rate-limit handler
with no sleep. -/
theorem hrl_of_not403 (r : Response) (now : Int) (h : r.status ≠ 403) :
    handle_rate_limit r now = (r, none) := by
  unfold handle_rate_limit
  rw [if_neg]
  intro hc
  exact h hc.1

theorem pagesJoin_nil : pagesJoin [] = [] := rfl

theorem pagesJoin_cons_of_200 (r : Response) (rs : List Response) (h : r.status = 200) :
    pagesJoin (r :: rs) = r.items ++ pagesJoin rs := by
  simp [pagesJoin, List.filter_cons, h]

theorem pagesJoin_cons_of_ne (r : Response) (rs : List Response) (h : ¬ r.status = 200) :
    pagesJoin (r :: rs) = pagesJoin rs := by
  simp [pagesJoin, List.filter_cons, h]

/-- One unfolding step of the search page loop. -/
theorem search_go_succ (now : Int) (maxRepos k : Nat) (rs : List Response)
    (acc : List Item) (reqs : Nat) (ws : List Int) (ds : Nat) :
    search_go now maxRepos (k + 1) rs acc reqs ws ds =
      if maxRepos ≤ acc.length then ⟨acc, reqs, ws, ds, rs⟩
      else
        match rs with
        | [] => ⟨acc, reqs, ws, ds, []⟩
        | r :: rs2 =>
          if r.status = 200 then
            search_go now maxRepos k rs2 (acc ++ r.items) (reqs + 1) ws (ds + 1)
          else if r.status = 403 then
            search_go now maxRepos k rs2 acc (reqs + 1)
              (ws ++ ((handle_rate_limit r now).2).toList) ds
          else ⟨acc, reqs + 1, ws, ds, rs2⟩ := rfl

/-- One unfolding step of the commits loop. -/
theorem list_go_cons (now : Int) (perPage : Nat) (r : Response) (rs : List Response)
    (acc : List Item) (reqs : Nat) (ws : List Int) :
    list_commits_go now perPage (r :: rs) acc reqs ws =
      if r.status = 200 then
        if r.items.length < perPage then
          ⟨acc ++ r.items, reqs + 1, ws ++ ((handle_rate_limit r now).2).toList, 0, rs⟩
        else
          list_commits_go now perPage rs (acc ++ r.items) (reqs + 1)
            (ws ++ ((handle_rate_limit r now).2).toList)
      else ⟨acc, reqs + 1, ws ++ ((handle_rate_limit r now).2).toList, 0, rs⟩ := by
  rw [list_commits_go]
  rw [hrl_fst]

/-- The search page loop returns immediately once the accumulated results
already reach the maximum. -/
theorem search_go_of_max_le (now : Int) (maxRepos k : Nat) (rs : List Response)
    (acc : List Item) (reqs : Nat) (ws : List Int) (ds : Nat)
    (h : maxRepos ≤ acc.length) :
    search_go now maxRepos k rs acc reqs ws ds = ⟨acc, reqs, ws, ds, rs⟩ := by
  cases k with
  | zero => rfl
  | succ k =>
    rw [search_go_succ]
    rw [if_pos h]

/-- The search page loop issues at most one request per remaining planned
page. -/
theorem search_go_requests_le (now : Int) (maxRepos : Nat) :
    ∀ (k : Nat) (rs : List Response) (acc : List Item) (reqs : Nat) (ws : List Int) (ds : Nat),
      (search_go now maxRepos k rs acc reqs ws ds).requests ≤ reqs + k := by
  intro k
  induction k with
  | zero =>
    intro rs acc reqs ws ds
    exact Nat.le_add_right reqs 0
  | succ k ih =>
    intro rs acc reqs ws ds
    rw [search_go_succ]
    by_cases hmax : maxRepos ≤ acc.length
    · rw [if_pos hmax]
      exact Nat.le_add_right reqs (k + 1)
    · rw [if_neg hmax]
      cases rs with
      | nil => exact Nat.le_add_right reqs (k + 1)
      | cons r rs2 =>
        by_cases h200 : r.status = 200
        · dsimp only
          rw [if_pos h200]
          exact le_trans (ih rs2 (acc ++ r.items) (reqs + 1) ws (ds + 1)) (by omega)
        · by_cases h403 : r.status = 403
          · dsimp only
            rw [if_neg h200, if_pos h403]
            exact le_trans
              (ih rs2 acc (reqs + 1) (ws ++ ((handle_rate_limit r now).2).toList) ds)
              (by omega)
          · dsimp only
            rw [if_neg h200, if_neg h403]
            exact Nat.add_le_add_left (Nat.succ_le_succ (Nat.zero_le k)) reqs

/-- Loop invariant of the search page loop: some consumed part of the mocked
sequence accounts for the requests, and the aggregated items extend the
accumulator by the items of the consumed status-200 pages, in order. -/
theorem search_go_spec (now : Int) (maxRepos : Nat) :
    ∀ (k : Nat) (rs : List Response) (acc : List Item) (reqs : Nat) (ws : List Int) (ds : Nat),
      ∃ consumed : List Response,
        rs = consumed ++ (search_go now maxRepos k rs acc reqs ws ds).leftover ∧
        (search_go now maxRepos k rs acc reqs ws ds).requests = reqs + consumed.length ∧
        (search_go now maxRepos k rs acc reqs ws ds).items = acc ++ pagesJoin consumed := by
  intro k
  induction k with
  | zero =>
    intro rs acc reqs ws ds
    exact ⟨[], by simp [search_go, pagesJoin]⟩
  | succ k ih =>
    intro rs acc reqs ws ds
    rw [search_go_succ]
    by_cases hmax : maxRepos ≤ acc.length
    · rw [if_pos hmax]
      exact ⟨[], by simp [pagesJoin]⟩
    · rw [if_neg hmax]
      cases rs with
      | nil => exact ⟨[], by simp [pagesJoin]⟩
      | cons r rs2 =>
        by_cases h200 : r.status = 200
        · dsimp only
          rw [if_pos h200]
          obtain ⟨c, hc1, hc2, hc3⟩ := ih rs2 (acc ++ r.items) (reqs + 1) ws (ds + 1)
          refine ⟨r :: c, ?_, ?_, ?_⟩
          · rw [List.cons_append, ← hc1]
          · rw [hc2, List.length_cons]
            omega
          · rw [hc3, pagesJoin_cons_of_200 r c h200, List.append_assoc]
        · by_cases h403 : r.status = 403
          · dsimp only
            rw [if_neg h200, if_pos h403]
            obtain ⟨c, hc1, hc2, hc3⟩ :=
              ih rs2 acc (reqs + 1) (ws ++ ((handle_rate_limit r now).2).toList) ds
            refine ⟨r :: c, ?_, ?_, ?_⟩
            · rw [List.cons_append, ← hc1]
            · rw [hc2, List.length_cons]
              omega
            · rw [hc3, pagesJoin_cons_of_ne r c h200]
          · dsimp only
            rw [if_neg h200, if_neg h403]
            refine ⟨[r], rfl, rfl, ?_⟩
            rw [pagesJoin_cons_of_ne r [] h200, pagesJoin_nil, List.append_nil]

/-- Loop invariant of the commits loop: the consumed part of the mocked
sequence accounts for the requests, and the aggregated items extend the
accumulator by the items of the consumed status-200 pages, in order. -/
theorem list_go_spec (now : Int) (perPage : Nat) :
    ∀ (rs : List Response) (acc : List Item) (reqs : Nat) (ws : List Int),
      ∃ consumed : List Response,
        rs = consumed ++ (list_commits_go now perPage rs acc reqs ws).leftover ∧
        (list_commits_go now perPage rs acc reqs ws).requests = reqs + consumed.length ∧
        (list_commits_go now perPage rs acc reqs ws).items = acc ++ pagesJoin consumed := by
  intro rs
  induction rs with
  | nil =>
    intro acc reqs ws
    exact ⟨[], by simp [list_commits_go, pagesJoin]⟩
  | cons r rs ih =>
    intro acc reqs ws
    rw [list_go_cons]
    by_cases h200 : r.status = 200
    · rw [if_pos h200]
      by_cases hshort : r.items.length < perPage
      · rw [if_pos hshort]
        refine ⟨[r], rfl, rfl, ?_⟩
        rw [pagesJoin_cons_of_200 r [] h200, pagesJoin_nil, List.append_nil]
      · rw [if_neg hshort]
        obtain ⟨c, hc1, hc2, hc3⟩ :=
          ih (acc ++ r.items) (reqs + 1) (ws ++ ((handle_rate_limit r now).2).toList)
        refine ⟨r :: c, ?_, ?_, ?_⟩
        · rw [List.cons_append, ← hc1]
        · rw [hc2, List.length_cons]
          omega
        · rw [hc3, pagesJoin_cons_of_200 r c h200, List.append_assoc]
    · rw [if_neg h200]
      refine ⟨[r], rfl, rfl, ?_⟩
      rw [pagesJoin_cons_of_ne r [] h200, pagesJoin_nil, List.append_nil]

theorem search_go_zero (now : Int) (maxRepos : Nat) (rs : List Response)
    (acc : List Item) (reqs : Nat) (ws : List Int) (ds : Nat) :
    search_go now maxRepos 0 rs acc reqs ws ds = ⟨acc, reqs, ws, ds, rs⟩ := rfl

/-- On a 200 first response with a nonzero page size, `search_repositories`
runs the page loop over the remaining planned pages and truncates the
aggregation to the maximum. -/
theorem search_repositories_ok (now : Int) (perPage maxRepos : Nat)
    (first : Response) (rest : List Response)
    (hs : first.status = 200) (hp : perPage ≠ 0) :
    search_repositories now perPage maxRepos first rest =
      Except.ok
        { search_go now maxRepos ((min first.totalCount maxRepos + perPage - 1) / perPage - 1)
            rest first.items 1 [] 0 with
          items :=
            (search_go now maxRepos ((min first.totalCount maxRepos + perPage - 1) / perPage - 1)
              rest first.items 1 [] 0).items.take maxRepos } := by
  unfold search_repositories
  rw [if_neg (by simp [hs]), if_neg hp]

/-- A run of full status-200 pages advances the commits loop without
stopping, accumulating the pages' items in order. -/
theorem list_go_advance (now : Int) (perPage : Nat) :
    ∀ (pre rs : List Response) (acc : List Item) (reqs : Nat) (ws : List Int),
      (∀ p ∈ pre, p.status = 200 ∧ perPage ≤ p.items.length) →
      list_commits_go now perPage (pre ++ rs) acc reqs ws =
        list_commits_go now perPage rs (acc ++ (pre.map (fun p => p.items)).flatten)
          (reqs + pre.length) ws := by
  intro pre
  induction pre with
  | nil =>
    intro rs acc reqs ws _
    simp
  | cons p pre ih =>
    intro rs acc reqs ws hpre
    obtain ⟨hp200, hplen⟩ := hpre p (List.mem_cons_self p pre)
    have hrest : ∀ q ∈ pre, q.status = 200 ∧ perPage ≤ q.items.length :=
      fun q hq => hpre q (List.mem_cons_of_mem p hq)
    rw [List.cons_append, list_go_cons, hrl_of_not403 p now (by rw [hp200]; decide),
      if_pos hp200, if_neg (Nat.not_lt.mpr hplen)]
    dsimp only
    simp only [Option.toList_none, List.append_nil]
    rw [ih rs (acc ++ p.items) (reqs + 1) ws hrest]
    rw [List.map_cons, List.flatten_cons, ← List.append_assoc, List.length_cons]
    rw [show reqs + 1 + pre.length = reqs + (pre.length + 1) from by omega]

/-- Claim C3 (amended): the rate limiter treats a response as throttled
exactly when the status is 403, the remaining-quota header is present, and
its value is 0; the wait duration then performed equals
(reset-epoch-seconds, defaulting to the current time, minus current-epoch-
seconds) plus 1 second — with no clamping of a negative difference at
zero. -/
theorem rateLimit_throttle_policy (r : Response) (now : Int) :
    (((handle_rate_limit r now).2).isSome ↔ (r.status = 403 ∧ r.rlRemaining = some 0)) ∧
    (r.status = 403 → r.rlRemaining = some 0 →
      (handle_rate_limit r now).2 = some (r.rlReset.getD now - now + 1)) := by
  rw [hrl_snd_char]
  constructor
  · by_cases h : r.status = 403 ∧ r.rlRemaining = some 0
    · simp [h]
    · rw [if_neg h]
      simp only [Option.isSome_none, Bool.false_eq_true, false_iff]
      exact h
  · intro h1 h2
    rw [if_pos ⟨h1, h2⟩]

/-- Witness for C3: a throttled response with reset five seconds ahead of a
current time of 100 sleeps for six seconds. -/
theorem rateLimit_throttle_policy_witness :
    (handle_rate_limit ⟨403, some 0, some 105, 0, [], 0⟩ 100).2 = some 6 := by
  have h := (rateLimit_throttle_policy ⟨403, some 0, some 105, 0, [], 0⟩ 100).2 rfl rfl
  rw [h]
  decide

/-- Counterexample for C3 as stated: with remaining quota 0 and a reset
epoch of 90 at current time 100, the code passes -9 to the sleeper, not
max(0, 90 - 100) + 1 = 1. -/
theorem rateLimit_wait_clamp_counterexample :
    (handle_rate_limit ⟨403, some 0, some 90, 0, [], 0⟩ 100).2 = some (-9) ∧
    (handle_rate_limit ⟨403, some 0, some 90, 0, [], 0⟩ 100).2 ≠
      some (max 0 ((90 : Int) - 100) + 1) := by
  refine ⟨by decide, by decide⟩

/-- Claim C10: the rate-limit handler returns exactly the response it was
given, and performs a wait exactly when the status is 403 with the
remaining-quota header present and equal to 0; any other response, 403 with
the header absent or nonzero included, passes through with no delay. -/
theorem rateLimit_frame (r : Response) (now : Int) :
    (handle_rate_limit r now).1 = r ∧
    (((handle_rate_limit r now).2).isSome ↔ (r.status = 403 ∧ r.rlRemaining = some 0)) := by
  refine ⟨hrl_fst r now, ?_⟩
  rw [hrl_snd_char]
  by_cases h : r.status = 403 ∧ r.rlRemaining = some 0
  · simp [h]
  · rw [if_neg h]
    simp only [Option.isSome_none, Bool.false_eq_true, false_iff]
    exact h

/-- Claim C8: `get_content` issues exactly one request and performs at most
one rate-limit wait; it returns the decoded record unchanged on status 200
and the not-found indicator (`none`) on any other status, without
retrying. -/
theorem getContent_single_shot (now : Int) (r : Response) :
    (get_content now r).requests = 1 ∧
    (get_content now r).waits.length ≤ 1 ∧
    (r.status = 200 → (get_content now r).result = some r.record) ∧
    (r.status ≠ 200 → (get_content now r).result = none) := by
  unfold get_content
  dsimp only
  rw [hrl_fst]
  refine ⟨?_, ?_, ?_, ?_⟩
  · split <;> rfl
  · split <;>
      (cases h2 : (handle_rate_limit r now).2 <;> simp [h2])
  · intro h
    rw [if_pos h]
  · intro h
    rw [if_neg h]

/-- Witness for C8: a mocked 200 response yields its record, a mocked 404
yields the not-found indicator. -/
theorem getContent_single_shot_witness :
    (get_content 0 ⟨200, none, none, 0, [], 5⟩).result = some 5 ∧
    (get_content 0 ⟨404, none, none, 0, [], 5⟩).result = none :=
  ⟨(getContent_single_shot 0 ⟨200, none, none, 0, [], 5⟩).2.2.1 rfl,
   (getContent_single_shot 0 ⟨404, none, none, 0, [], 5⟩).2.2.2 (by decide)⟩

/-- Claim C2 evaluated at its failing input: with a three-page search plan
whose second page answers 403 with remaining quota 0 and reset 5 seconds
ahead, the code sleeps 6 seconds but then advances the page counter
(`continue` in the `for` loop), so page 2 is skipped — its items (3 and 4)
appear zero times, not once, and the next request receives page 3.  In
`list_commits` the same throttled response makes the loop wait 6 seconds
and then halt, again without retrying the page. -/
theorem search_403_page_skipped :
    search_repositories 100 2 6 ⟨200, none, none, 6, [1, 2], 0⟩
        [⟨403, some 0, some 105, 0, [3, 4], 0⟩, ⟨200, none, none, 6, [5, 6], 0⟩] =
      Except.ok ⟨[1, 2, 5, 6], 3, [6], 1, []⟩ ∧
    (3 : Item) ∉ ([1, 2, 5, 6] : List Item) ∧
    list_commits 100 2
        [⟨200, none, none, 0, [1, 2], 0⟩, ⟨403, some 0, some 105, 0, [3, 4], 0⟩,
          ⟨200, none, none, 0, [5, 6], 0⟩] =
      ⟨[1, 2], 2, [6], 0, [⟨200, none, none, 0, [5, 6], 0⟩]⟩ :=
  ⟨rfl, by decide, rfl⟩

/-- Claim C1: whatever the mocked page sequence, a result returned by
`search_repositories` never holds more than `maxRepos` records. -/
theorem search_result_le_max (now : Int) (perPage maxRepos : Nat)
    (first : Response) (rest : List Response) (out : PagedOutcome)
    (h : search_repositories now perPage maxRepos first rest = Except.ok out) :
    out.items.length ≤ maxRepos := by
  by_cases hs : first.status = 200
  · by_cases hp : perPage = 0
    · unfold search_repositories at h
      rw [if_neg (by simp [hs]), if_pos hp] at h
      exact Except.noConfusion h
    · rw [search_repositories_ok now perPage maxRepos first rest hs hp] at h
      injection h with h
      subst h
      dsimp only
      rw [List.length_take]
      exact min_le_left _ _
  · unfold search_repositories at h
    rw [if_pos hs] at h
    split at h <;> (injection h with h; subst h; exact Nat.zero_le maxRepos)

/-- Witness for C1 at a concrete two-item mock. -/
theorem search_result_le_max_witness :
    (⟨[3, 4], 1, [], 0, []⟩ : PagedOutcome).items.length ≤ 5 :=
  search_result_le_max 0 2 5 ⟨200, none, none, 2, [3, 4], 0⟩ [] ⟨[3, 4], 1, [], 0, []⟩ rfl

/-- Claim C9: the division-by-zero error in the total-page computation of
`search_repositories` is raised exactly when the page size is 0 and the
first request returns status 200; with a positive page size the operation
is total. -/
theorem search_zero_division_iff (now : Int) (perPage maxRepos : Nat)
    (first : Response) (rest : List Response) :
    search_repositories now perPage maxRepos first rest =
        Except.error PyError.zeroDivisionError ↔
      (perPage = 0 ∧ first.status = 200) := by
  constructor
  · intro h
    by_cases hs : first.status = 200
    · by_cases hp : perPage = 0
      · exact ⟨hp, hs⟩
      · rw [search_repositories_ok now perPage maxRepos first rest hs hp] at h
        exact Except.noConfusion h
    · unfold search_repositories at h
      rw [if_pos hs] at h
      split at h <;> exact Except.noConfusion h
  · rintro ⟨hp, hs⟩
    unfold search_repositories
    rw [if_neg (by simp [hs]), if_pos hp]

/-- Claim C4: the aggregated result preserves transport order — for
`search_repositories` it is (the `maxRepos`-truncation of) the first page's
items followed by the items of the consumed status-200 pages in fetch
order, and for `list_commits` it is exactly the concatenation of the items
of the consumed status-200 pages in fetch order. -/
theorem aggregation_order (now : Int) (perPage maxRepos : Nat) :
    (∀ (first : Response) (rest : List Response) (out : PagedOutcome),
        first.status = 200 →
        search_repositories now perPage maxRepos first rest = Except.ok out →
        out.items = (first.items ++ pagesJoin (rest.take (out.requests - 1))).take maxRepos) ∧
    (∀ rs : List Response,
        (list_commits now perPage rs).items =
          pagesJoin (rs.take (list_commits now perPage rs).requests)) := by
  constructor
  · intro first rest out hs h
    by_cases hp : perPage = 0
    · unfold search_repositories at h
      rw [if_neg (by simp [hs]), if_pos hp] at h
      exact Except.noConfusion h
    · rw [search_repositories_ok now perPage maxRepos first rest hs hp] at h
      injection h with h
      subst h
      dsimp only
      obtain ⟨c, hc1, hc2, hc3⟩ :=
        search_go_spec now maxRepos
          ((min first.totalCount maxRepos + perPage - 1) / perPage - 1) rest first.items 1 [] 0
      have hreq :
          (search_go now maxRepos ((min first.totalCount maxRepos + perPage - 1) / perPage - 1)
            rest first.items 1 [] 0).requests - 1 = c.length := by
        omega
      rw [hreq, hc3, hc1, List.take_left]
  · intro rs
    unfold list_commits
    obtain ⟨c, hc1, hc2, hc3⟩ := list_go_spec now perPage rs [] 0 []
    rw [hc3, hc2, List.nil_append, Nat.zero_add]
    conv_rhs => rw [hc1]
    rw [List.take_left]

/-- Witness for C4 at concrete one-page mocks for both operations. -/
theorem aggregation_order_witness :
    (⟨[9], 1, [], 0, []⟩ : PagedOutcome).items =
      (([9] : List Item) ++
        pagesJoin (List.take ((⟨[9], 1, [], 0, []⟩ : PagedOutcome).requests - 1)
          ([] : List Response))).take 3 ∧
    (list_commits 0 1 [⟨200, none, none, 0, [7], 0⟩]).items =
      pagesJoin (List.take (list_commits 0 1 [⟨200, none, none, 0, [7], 0⟩]).requests
        [⟨200, none, none, 0, [7], 0⟩]) :=
  ⟨(aggregation_order 0 1 3).1 ⟨200, none, none, 1, [9], 0⟩ [] ⟨[9], 1, [], 0, []⟩ rfl rfl,
   (aggregation_order 0 1 3).2 [⟨200, none, none, 0, [7], 0⟩]⟩

/-- Claim C5 (amended): with a positive page size and a 200 first page, the
requests issued never exceed the planned
max(1, ceil(min(totalCount, maxItems) / pageSize)); the loop stops before
its next request once the accumulated items reach the maximum; and when the
first page reports total-count 0 exactly one request is issued and the
result is the first page's items truncated to the maximum — empty whenever
that item list is empty, but not in general. -/
theorem search_page_plan (now : Int) (perPage maxRepos : Nat)
    (first : Response) (rest : List Response) (out : PagedOutcome)
    (hp : perPage ≠ 0) (hs : first.status = 200)
    (h : search_repositories now perPage maxRepos first rest = Except.ok out) :
    out.requests ≤ max 1 ((min first.totalCount maxRepos + perPage - 1) / perPage) ∧
    (maxRepos ≤ first.items.length → out.requests = 1 ∧ out.leftover = rest) ∧
    (first.totalCount = 0 →
      out.requests = 1 ∧ out.leftover = rest ∧ out.items = first.items.take maxRepos) := by
  rw [search_repositories_ok now perPage maxRepos first rest hs hp] at h
  injection h with h
  subst h
  dsimp only
  refine ⟨?_, ?_, ?_⟩
  · have hreq :=
      search_go_requests_le now maxRepos
        ((min first.totalCount maxRepos + perPage - 1) / perPage - 1) rest first.items 1 [] 0
    rcases Nat.eq_zero_or_pos ((min first.totalCount maxRepos + perPage - 1) / perPage) with
      h0 | hpos
    · rw [h0] at hreq ⊢
      simp only [Nat.zero_sub, Nat.add_zero] at hreq
      exact le_trans hreq (le_max_left 1 0)
    · have h1 :
          1 + ((min first.totalCount maxRepos + perPage - 1) / perPage - 1) =
            (min first.totalCount maxRepos + perPage - 1) / perPage := by
        omega
      rw [h1] at hreq
      exact le_trans hreq (le_max_right 1 _)
  · intro hmax
    rw [search_go_of_max_le now maxRepos
      ((min first.totalCount maxRepos + perPage - 1) / perPage - 1) rest first.items 1 [] 0 hmax]
    exact ⟨rfl, rfl⟩
  · intro htc
    have htp0 : (min first.totalCount maxRepos + perPage - 1) / perPage = 0 := by
      rw [htc, min_eq_left (Nat.zero_le maxRepos), Nat.zero_add]
      exact Nat.div_eq_of_lt (by omega)
    rw [htp0, Nat.zero_sub, search_go_zero]
    exact ⟨rfl, rfl, rfl⟩

/-- Witness for C5 at a mock whose first page reports total-count 0 while
carrying three items, with maximum 2. -/
theorem search_page_plan_witness :
    ((⟨[1, 2], 1, [], 0, [⟨500, none, none, 0, [], 0⟩]⟩ : PagedOutcome).requests = 1 ∧
      (⟨[1, 2], 1, [], 0, [⟨500, none, none, 0, [], 0⟩]⟩ : PagedOutcome).leftover =
        [⟨500, none, none, 0, [], 0⟩]) ∧
    ((⟨[1, 2], 1, [], 0, [⟨500, none, none, 0, [], 0⟩]⟩ : PagedOutcome).requests = 1 ∧
      (⟨[1, 2], 1, [], 0, [⟨500, none, none, 0, [], 0⟩]⟩ : PagedOutcome).leftover =
        [⟨500, none, none, 0, [], 0⟩] ∧
      (⟨[1, 2], 1, [], 0, [⟨500, none, none, 0, [], 0⟩]⟩ : PagedOutcome).items =
        List.take 2 [1, 2, 3]) := by
  have h :=
    search_page_plan 0 5 2 ⟨200, none, none, 0, [1, 2, 3], 0⟩ [⟨500, none, none, 0, [], 0⟩]
      ⟨[1, 2], 1, [], 0, [⟨500, none, none, 0, [], 0⟩]⟩ (by decide) rfl rfl
  exact ⟨h.2.1 (by decide), h.2.2 rfl⟩

/-- Counterexample for C5 as stated: a first page reporting total-count 0
but carrying an item makes `search` return that item, not an empty
result. -/
theorem search_totalCount_zero_counterexample :
    search_repositories 0 10 10 ⟨200, none, none, 0, [7], 0⟩ [] =
      Except.ok ⟨[7], 1, [], 0, []⟩ ∧
    ([7] : List Item) ≠ [] :=
  ⟨rfl, by decide⟩

/-- Claim C6: once a status-200 page returns fewer items than the requested
page size, `list_commits` stops: the short page's items are included, the
request count is the number of pages seen, and the remaining mocked
responses are never requested. -/
theorem listCommits_stops_on_short_page (now : Int) (perPage : Nat)
    (pre : List Response) (r : Response) (rest : List Response)
    (hpre : ∀ p ∈ pre, p.status = 200 ∧ perPage ≤ p.items.length)
    (h200 : r.status = 200) (hshort : r.items.length < perPage) :
    list_commits now perPage (pre ++ r :: rest) =
      ⟨(pre.map (fun p => p.items)).flatten ++ r.items, pre.length + 1, [], 0, rest⟩ := by
  unfold list_commits
  rw [list_go_advance now perPage pre (r :: rest) [] 0 [] hpre]
  rw [list_go_cons, hrl_of_not403 r now (by rw [h200]; decide), if_pos h200, if_pos hshort]
  dsimp only
  simp only [Option.toList_none, List.append_nil, List.nil_append, Nat.zero_add]

/-- Witness for C6: after one full page of two items, a one-item page stops
the loop with the third mocked page left unrequested. -/
theorem listCommits_stops_on_short_page_witness :
    list_commits 0 2
        [⟨200, none, none, 0, [1, 2], 0⟩, ⟨200, none, none, 0, [3], 0⟩,
          ⟨200, none, none, 0, [8, 8], 0⟩] =
      ⟨[1, 2, 3], 2, [], 0, [⟨200, none, none, 0, [8, 8], 0⟩]⟩ :=
  listCommits_stops_on_short_page 0 2 [⟨200, none, none, 0, [1, 2], 0⟩]
    ⟨200, none, none, 0, [3], 0⟩ [⟨200, none, none, 0, [8, 8], 0⟩] (by decide) rfl (by decide)

/-- Claim C7: a response that is neither 200 nor 403 halts pagination at
once — `search_repositories` hit on page 2 of a plan of at least two more
pages returns exactly page 1's items as an ordinary value with the later
mocked pages unrequested, and `list_commits` likewise returns what was
aggregated before the failing page. -/
theorem halt_on_http_error (now : Int) (perPage maxRepos : Nat) :
    (∀ (first p2 : Response) (rest : List Response),
        perPage ≠ 0 → first.status = 200 → first.items.length < maxRepos →
        p2.status ≠ 200 → p2.status ≠ 403 →
        2 ≤ (min first.totalCount maxRepos + perPage - 1) / perPage →
        search_repositories now perPage maxRepos first (p2 :: rest) =
          Except.ok ⟨first.items, 2, [], 0, rest⟩) ∧
    (∀ (pre : List Response) (r : Response) (rest : List Response),
        (∀ p ∈ pre, p.status = 200 ∧ perPage ≤ p.items.length) →
        r.status ≠ 200 → r.status ≠ 403 →
        list_commits now perPage (pre ++ r :: rest) =
          ⟨(pre.map (fun p => p.items)).flatten, pre.length + 1, [], 0, rest⟩) := by
  constructor
  · intro first p2 rest hp hs hlen h200 h403 htp
    rw [search_repositories_ok now perPage maxRepos first (p2 :: rest) hs hp]
    obtain ⟨k2, hk⟩ :
        ∃ k2, (min first.totalCount maxRepos + perPage - 1) / perPage - 1 = k2 + 1 :=
      ⟨(min first.totalCount maxRepos + perPage - 1) / perPage - 2, by omega⟩
    rw [hk, search_go_succ, if_neg (Nat.not_le.mpr hlen)]
    dsimp only
    rw [if_neg h200, if_neg h403]
    dsimp only
    rw [List.take_of_length_le (Nat.le_of_lt hlen)]
  · intro pre r rest hpre h200 h403
    unfold list_commits
    rw [list_go_advance now perPage pre (r :: rest) [] 0 [] hpre]
    rw [list_go_cons, hrl_of_not403 r now h403, if_neg h200]
    dsimp only
    simp only [Option.toList_none, List.append_nil, List.nil_append, Nat.zero_add]

/-- Witness for C7: a 500 on page 2 of a three-page search plan, and a 404
after one full commits page, each halting with a partial result. -/
theorem halt_on_http_error_witness :
    search_repositories 0 10 25 ⟨200, none, none, 30, [1, 2], 0⟩
        [⟨500, none, none, 0, [], 0⟩, ⟨200, none, none, 30, [12], 0⟩] =
      Except.ok ⟨[1, 2], 2, [], 0, [⟨200, none, none, 30, [12], 0⟩]⟩ ∧
    list_commits 0 2
        [⟨200, none, none, 0, [1, 2], 0⟩, ⟨404, none, none, 0, [], 0⟩,
          ⟨200, none, none, 0, [9], 0⟩] =
      ⟨[1, 2], 2, [], 0, [⟨200, none, none, 0, [9], 0⟩]⟩ :=
  ⟨(halt_on_http_error 0 10 25).1 ⟨200, none, none, 30, [1, 2], 0⟩ ⟨500, none, none, 0, [], 0⟩
      [⟨200, none, none, 30, [12], 0⟩] (by decide) rfl (by decide) (by decide) (by decide)
      (by decide),
   (halt_on_http_error 0 2 25).2 [⟨200, none, none, 0, [1, 2], 0⟩] ⟨404, none, none, 0, [], 0⟩
      [⟨200, none, none, 0, [9], 0⟩] (by decide) (by decide) (by decide)⟩

end GithubApi
